import Mathlib

/-!
Verification of the Recommendation & Calorie-Estimation Engine of a
milk-tea tracking web application, against its specification.

The TypeScript sources are shallowly embedded: JS numbers become `ℚ`
(all arithmetic in scope is exact decimal arithmetic), `Math.round`
becomes floor of `x + 1/2`, JS truthiness of strings/numbers is made
explicit, and React component state is passed explicitly.
-/

namespace MilkTea

/-- Model of JS `Math.round`: round half towards positive infinity. -/
def jsMathRound (q : ℚ) : ℤ := ⌊q + 1/2⌋

/-- Model of JS `String.prototype.trim`: drop leading and trailing
whitespace. -/
def jsTrim (s : String) : String :=
  ⟨((s.data.dropWhile Char.isWhitespace).reverse.dropWhile
      Char.isWhitespace).reverse⟩

/-- Model of JS `s1 || s2` for strings: the empty string is falsy. -/
def jsStrOr (s fallback : String) : String := if s = "" then fallback else s

/-- Model of JS `x || d` for an optional number: `undefined` and `0` are falsy. -/
def jsNumOr (x : Option ℚ) (fallback : ℚ) : ℚ :=
  match x with
  | none => fallback
  | some v => if v = 0 then fallback else v

/-- `MilkTeaProduct` interface (src/components/smart-recommendations.tsx and
src/components/record-entry.tsx). -/
structure MilkTeaProduct where
  id : String
  name : String
  brand : String
  calories : ℚ
  sugar : String
  size : String
  ingredients : List String
  rating : ℚ
  category : String
  image : Option String
deriving DecidableEq, Repr

/-- `TeaProduct` interface (src/lib/tea-database.ts).  The `created_at` and
`updated_at` audit columns are irrelevant to every claim and omitted. -/
structure TeaProduct where
  id : ℕ
  name : String
  brand : String
  base_calories : ℚ
  sugar_content : String
  size : String
  ingredients : List String
  category : String
  rating : ℚ
  image_url : Option String
  description : Option String
deriving DecidableEq, Repr

/-- The record shape assembled by `handleSubmit` in
src/components/record-entry.tsx and stored in `localStorage['teaRecords']`. -/
structure TeaRecordLocal where
  id : String
  drinkName : String
  brand : String
  calories : ℤ
  cupSize : String
  sugarLevel : String
  mood : String
  notes : String
  date : String
  timestamp : String
deriving DecidableEq, Repr

/-! ## Catalog search (src/lib/tea-database.ts, `searchTeaProducts`) -/

/-- `leadsList n h` is true when the char list `n` is an initial segment of `h`. -/
def leadsList : List Char → List Char → Bool
  | [], _ => true
  | _ :: _, [] => false
  | c :: cs, d :: ds => c == d && leadsList cs ds

/-- `occursIn n h` is true when the char list `n` occurs contiguously in `h`. -/
def occursIn (needle : List Char) : List Char → Bool
  | [] => leadsList needle []
  | d :: ds => leadsList needle (d :: ds) || occursIn needle ds

/-- Case-insensitive substring test: the model of the SQL `ilike '%query%'`
filter used by `searchTeaProducts`. -/
def iContains (hay needle : String) : Bool :=
  occursIn needle.toLower.toList hay.toLower.toList

/-- The `.or(name.ilike.%q%, brand.ilike.%q%, description.ilike.%q%)` filter. -/
def matchesQuery (query : String) (p : TeaProduct) : Bool :=
  iContains p.name query || iContains p.brand query ||
    iContains (p.description.getD "") query

/-- Stable insertion of a product into a rating-descending list (inserted
after any element of equal rating, preserving source order). -/
def insertByRating (p : TeaProduct) : List TeaProduct → List TeaProduct
  | [] => [p]
  | q :: qs => if q.rating < p.rating then p :: q :: qs else q :: insertByRating p qs

/-- Model of `.order('rating', \x7b ascending: false \x7d)`: stable sort by
descending rating. -/
def sortByRatingDesc : List TeaProduct → List TeaProduct
  | [] => []
  | p :: ps => insertByRating p (sortByRatingDesc ps)

/-- `searchTeaProducts` (src/lib/tea-database.ts lines 61-91), with the remote
`tea_products` table passed explicitly.  An empty/whitespace query takes the
popular-products branch (the code's comment: 如果没有查询词，返回热门奶茶);
otherwise rows are filtered by the case-insensitive substring test on
name/brand/description.  Both branches order by descending rating and
truncate to `limit`. -/
def searchTeaProducts (table : List TeaProduct) (query : String) (limit : ℕ) :
    List TeaProduct :=
  if jsTrim query = "" then
    (sortByRatingDesc table).take limit
  else
    (sortByRatingDesc (table.filter (matchesQuery query))).take limit

/-! ## Recommendation scorer (src/components/smart-recommendations.tsx) -/

/-- `searchResults.reduce((prev, current) => prev.calories < current.calories
? prev : current)`: JS `reduce` with no seed starts from the head; on a
calorie tie the conditional yields `current`. -/
def reduceMinCalories (x : MilkTeaProduct) (xs : List MilkTeaProduct) :
    MilkTeaProduct :=
  xs.foldl (fun prev current =>
    if prev.calories < current.calories then prev else current) x

/-- The `lowestCalorie` recommendation: `none` on an empty result set
(the effect returns early), otherwise the `reduce` above. -/
def lowestCalorieOf : List MilkTeaProduct → Option MilkTeaProduct
  | [] => none
  | x :: xs => some (reduceMinCalories x xs)

/-- `Math.min(...searchResults.map(p => p.calories))` on a non-empty set. -/
def minCaloriesOf (x : MilkTeaProduct) (xs : List MilkTeaProduct) : ℚ :=
  xs.foldl (fun m p => min m p.calories) x.calories

/-- `Math.max(...searchResults.map(p => p.calories))` on a non-empty set. -/
def maxCaloriesOf (x : MilkTeaProduct) (xs : List MilkTeaProduct) : ℚ :=
  xs.foldl (fun m p => max m p.calories) x.calories

/-- `const calorieRange = maxCalories - minCalories || 1`: the difference,
with `0` (falsy) replaced by `1`. -/
def calorieRangeOf (x : MilkTeaProduct) (xs : List MilkTeaProduct) : ℚ :=
  let r := maxCaloriesOf x xs - minCaloriesOf x xs
  if r = 0 then 1 else r

/-- The per-candidate balanced score: rating weight 0.5, calorie weight 0.3,
brand-diversity bonus 0.2 when the brand differs from the lowest-calorie
pick's brand. -/
def balanceScore (minCal range : ℚ) (lowBrand : String) (p : MilkTeaProduct) :
    ℚ :=
  (p.rating / 5) * 0.5 + (1 - (p.calories - minCal) / range) * 0.3 +
    (if p.brand ≠ lowBrand then 0.2 else 0)

/-- `xs.foldl` keeping the incumbent unless the challenger scores strictly
higher: this is the head of a stable descending sort by `f`, i.e. the
first-encountered maximiser — the model of
`.sort((a, b) => b.balanceScore - a.balanceScore)[0]` (JS sort is stable). -/
def firstMaxBy (f : MilkTeaProduct → ℚ) (x : MilkTeaProduct)
    (xs : List MilkTeaProduct) : MilkTeaProduct :=
  xs.foldl (fun acc y => if f acc < f y then y else acc) x

/-- The `balanced` recommendation (smart-recommendations.tsx lines 53-89).
When `filteredResults` is empty the code's fallback branch filters the same
result set with the same predicate, sorts the resulting empty list and takes
its head — i.e. it also produces no recommendation — so that branch is
embedded as `none`. -/
def balancedOf : List MilkTeaProduct → Option MilkTeaProduct
  | [] => none
  | x :: xs =>
    let lowestCalorie := reduceMinCalories x xs
    match (x :: xs).filter (fun p => p.id ≠ lowestCalorie.id) with
    | [] => none
    | y :: ys =>
      some (firstMaxBy
        (balanceScore (minCaloriesOf x xs) (calorieRangeOf x xs)
          lowestCalorie.brand) y ys)

/-- The recommendation pair computed by the `SmartRecommendations` effect for
a given (non-query-gated) search result set. -/
def recommend (results : List MilkTeaProduct) :
    Option MilkTeaProduct × Option MilkTeaProduct :=
  (lowestCalorieOf results, balancedOf results)

/-- The whole effect body (smart-recommendations.tsx lines 34-95): a
whitespace-only query clears the recommendations without searching; otherwise
the search function is consulted with a limit of 20 and the scorer runs. -/
def smartRecUpdate (search : String → ℕ → List MilkTeaProduct)
    (searchQuery : String) : Option MilkTeaProduct × Option MilkTeaProduct :=
  if jsTrim searchQuery = "" then (none, none)
  else recommend (search searchQuery 20)

/-! ## Record entry (src/components/record-entry.tsx) -/

/-- The size-multiplier table lookup
`\x7b small: 0.8, medium: 1.0, large: 1.3 \x7d[cupSize] || 1.0`. -/
def sizeMultiplierOf (cupSize : String) : ℚ :=
  jsNumOr
    (if cupSize = "small" then some 0.8
     else if cupSize = "medium" then some 1.0
     else if cupSize = "large" then some 1.3
     else none) 1.0

/-- `calculateTotalCalories` (record-entry.tsx lines 87-99), with the
component state passed explicitly.  Returns 0 when no drink is selected. -/
def calculateTotalCalories (selectedDrink : Option MilkTeaProduct)
    (cupSize : String) (sugarLevel : ℚ) : ℤ :=
  match selectedDrink with
  | none => 0
  | some drink =>
    let sizeMultiplier := sizeMultiplierOf cupSize
    let sugarMultiplier := sugarLevel / 100
    jsMathRound (drink.calories * sizeMultiplier * (0.7 + 0.3 * sugarMultiplier))

/-- Modelled from the spec (§4.3 Calorie Estimator): the contract
`estimate(baseCalories, size, sweetnessPercent)` with the fixed multiplier
table and `result = round(baseCalories * sizeMultiplier *
(0.7 + 0.3 * sweetnessMultiplier))`, stated for refinement comparison with
`calculateTotalCalories`. -/
def estimateSpec (baseCalories : ℚ) (size : String)
    (sweetnessPercent : ℚ) : ℤ :=
  let sizeMultiplier : ℚ :=
    if size = "small" then 0.8
    else if size = "medium" then 1.0
    else if size = "large" then 1.3
    else 1.0
  let sweetnessMultiplier := sweetnessPercent / 100
  jsMathRound (baseCalories * sizeMultiplier * (0.7 + 0.3 * sweetnessMultiplier))

/-- `getSugarLevelName` (record-entry.tsx lines 195-200): percent → tier
label (无糖 none / 少糖 light / 半糖 half / 全糖 full). -/
def getSugarLevelName (percentage : ℚ) : String :=
  if percentage = 0 then "无糖"
  else if percentage ≤ 30 then "少糖"
  else if percentage ≤ 70 then "半糖"
  else "全糖"

/-- The `recordData` object assembled by `handleSubmit` (record-entry.tsx
lines 101-120), with component state and the clock passed explicitly
(`nowMs` is `Date.now()`, `todayStr` is
`new Date().toISOString().split('T')[0]`, `nowIso` is
`new Date().toISOString()`).  `editingRecord?.field || fallback` is JS
optional chaining plus string truthiness.  Note that `selectedDrink` is not
consulted: the code sets `drinkName` to the free-text `customName`, `brand`
to the literal 自定义 (custom) and `calories` to the fixed 200 default on
every path. -/
def handleSubmitRecordData (editingRecord : Option TeaRecordLocal)
    (customName : String) (selectedDrink : Option MilkTeaProduct)
    (cupSize : String) (sugarLevel : ℚ) (mood notes : String)
    (nowMs : ℕ) (todayStr nowIso : String) : TeaRecordLocal :=
  let _ := selectedDrink
  let finalDrinkName := customName
  let estimatedCalories : ℤ := 200
  { id := match editingRecord with
      | some r => jsStrOr r.id (toString nowMs)
      | none => toString nowMs
    drinkName := finalDrinkName
    brand := "自定义"
    calories := estimatedCalories
    cupSize := cupSize
    sugarLevel := getSugarLevelName sugarLevel
    mood := mood
    notes := notes
    date := match editingRecord with
      | some r => jsStrOr r.date todayStr
      | none => todayStr
    timestamp := match editingRecord with
      | some r => jsStrOr r.timestamp nowIso
      | none => nowIso }

/-! ## My-records page (src/app/my-records/page.tsx) -/

/-- The `onSave` callback passed to `RecordEntry` (my-records/page.tsx lines
318-339).  In edit mode the record whose id matches the edited record is
replaced by `\x7b ...record, ...updatedRecord \x7d`; since `updatedRecord`
carries every modelled field, the merge is `updatedRecord`.  In create mode a
fresh time-based id and a timestamp of now are stamped onto the record before
it is prepended. -/
def onSaveRecords (records : List TeaRecordLocal)
    (editingRecord : Option TeaRecordLocal) (updatedRecord : TeaRecordLocal)
    (nowMs : ℕ) (nowIso : String) : List TeaRecordLocal :=
  match editingRecord with
  | some er =>
    records.map (fun r => if r.id = er.id then updatedRecord else r)
  | none =>
    let newRecord := { updatedRecord with id := toString nowMs, timestamp := nowIso }
    newRecord :: records

/-- `handleDeleteRecord` (my-records/page.tsx lines 83-106): filters the
record list by id and writes the same filtered list to both the React state
and `localStorage['teaRecords']`; the pair returned is
(in-memory list, persisted list). -/
def handleDeleteRecord (records : List TeaRecordLocal) (recordId : String) :
    List TeaRecordLocal × List TeaRecordLocal :=
  let updatedRecords := records.filter (fun r => r.id ≠ recordId)
  (updatedRecords, updatedRecords)

/-! ## Budget manager (src/components/budget-manager.tsx) -/

/-- The observable state of the `BudgetManager` component:
`weeklyBudget` React state, the value persisted under
`localStorage['weeklyCalorieBudget']` (the code stores
`tempBudget.toString()`; the numeric value is modelled), and the
`isEditing` flag. -/
structure BudgetState where
  weeklyBudget : ℚ
  storedBudget : Option ℚ
  isEditing : Bool
deriving DecidableEq, Repr

/-- `saveBudget` (budget-manager.tsx lines 95-102): commits `tempBudget` to
state and local storage and leaves edit mode only when
`tempBudget > 0 && tempBudget <= 10000`; otherwise nothing happens. -/
def saveBudget (tempBudget : ℚ) (st : BudgetState) : BudgetState :=
  if 0 < tempBudget ∧ tempBudget ≤ 10000 then
    { weeklyBudget := tempBudget
      storedBudget := some tempBudget
      isEditing := false }
  else st

/-! ## Concrete sample data used to instantiate the theorems -/

/-- A sample catalog row of the `tea_products` table. -/
def demoTea : TeaProduct :=
  { id := 1, name := "珍珠奶茶", brand := "喜茶", base_calories := 300,
    sugar_content := "full", size := "medium", ingredients := ["tea", "milk"],
    category := "high", rating := 4, image_url := none, description := none }

/-- A `MilkTeaProduct` with a given base calorie value, as produced by
`convertTeaProduct`. -/
def mkDrink (base : ℚ) : MilkTeaProduct :=
  { id := "7", name := "珍珠奶茶", brand := "喜茶", calories := base,
    sugar := "full", size := "medium", ingredients := ["tea", "milk"],
    rating := 4, category := "medium", image := none }

/-- Sample search results for the scorer: the lowest-calorie pick. -/
def prodA : MilkTeaProduct :=
  { id := "1", name := "A", brand := "喜茶", calories := 100, sugar := "",
    size := "medium", ingredients := [], rating := 5, category := "low",
    image := none }

/-- Sample search results for the scorer: a mid-calorie candidate of a
different brand. -/
def prodB : MilkTeaProduct :=
  { id := "2", name := "B", brand := "奈雪", calories := 200, sugar := "",
    size := "medium", ingredients := [], rating := 4, category := "medium",
    image := none }

/-- Sample search results for the scorer: a high-calorie candidate of the
same brand as the lowest pick. -/
def prodC : MilkTeaProduct :=
  { id := "3", name := "C", brand := "喜茶", calories := 300, sugar := "",
    size := "medium", ingredients := [], rating := 3, category := "high",
    image := none }

/-- Two products sharing the minimal calorie value, distinct ids. -/
def twinA : MilkTeaProduct :=
  { id := "1", name := "A", brand := "喜茶", calories := 100, sugar := "",
    size := "medium", ingredients := [], rating := 5, category := "low",
    image := none }

/-- Second product of the equal-calorie pair. -/
def twinB : MilkTeaProduct :=
  { id := "2", name := "B", brand := "奈雪", calories := 100, sugar := "",
    size := "medium", ingredients := [], rating := 4, category := "low",
    image := none }

/-- A sample persisted record (as previously saved by the assembler). -/
def demoOld : TeaRecordLocal :=
  { id := "1700000000000", drinkName := "旧奶茶", brand := "自定义",
    calories := 200, cupSize := "medium", sugarLevel := "半糖",
    mood := "happy", notes := "", date := "2026-10-01",
    timestamp := "2026-10-01T08:00:00.000Z" }

/-! ## Helper lemmas about the fold-based argmax / argmin -/

theorem firstMaxBy_cons (f : MilkTeaProduct → ℚ) (x y : MilkTeaProduct)
    (ys : List MilkTeaProduct) :
    firstMaxBy f x (y :: ys) = firstMaxBy f (if f x < f y then y else x) ys :=
  rfl

theorem firstMaxBy_mem (f : MilkTeaProduct → ℚ) (x : MilkTeaProduct)
    (xs : List MilkTeaProduct) : firstMaxBy f x xs ∈ x :: xs := by
  induction xs generalizing x with
  | nil => simp [firstMaxBy]
  | cons y ys ih =>
    rw [firstMaxBy_cons]
    by_cases h : f x < f y
    · rw [if_pos h]
      exact List.mem_cons_of_mem _ (ih y)
    · rw [if_neg h]
      rcases List.mem_cons.mp (ih x) with h1 | h1
      · rw [h1]
        exact List.mem_cons_self _ _
      · exact List.mem_cons_of_mem _ (List.mem_cons_of_mem _ h1)

theorem firstMaxBy_le (f : MilkTeaProduct → ℚ) (x : MilkTeaProduct)
    (xs : List MilkTeaProduct) :
    ∀ q ∈ x :: xs, f q ≤ f (firstMaxBy f x xs) := by
  induction xs generalizing x with
  | nil =>
    intro q hq
    rcases List.mem_cons.mp hq with h | h
    · exact h ▸ le_refl _
    · simp at h
  | cons y ys ih =>
    intro q hq
    rw [firstMaxBy_cons]
    by_cases h : f x < f y
    · rw [if_pos h]
      rcases List.mem_cons.mp hq with h1 | h1
      · exact h1 ▸ le_trans (le_of_lt h) (ih y y (List.mem_cons_self _ _))
      · exact ih y q h1
    · rw [if_neg h]
      rcases List.mem_cons.mp hq with h1 | h1
      · exact h1 ▸ ih x x (List.mem_cons_self _ _)
      · rcases List.mem_cons.mp h1 with h2 | h2
        · exact h2 ▸ le_trans (not_lt.mp h) (ih x x (List.mem_cons_self _ _))
        · exact ih x q (List.mem_cons_of_mem _ h2)

theorem firstMaxBy_first (f : MilkTeaProduct → ℚ) (x : MilkTeaProduct)
    (xs : List MilkTeaProduct) :
    ∃ l₁ l₂, x :: xs = l₁ ++ firstMaxBy f x xs :: l₂ ∧
      ∀ q ∈ l₁, f q < f (firstMaxBy f x xs) := by
  induction xs generalizing x with
  | nil => exact ⟨[], [], by simp [firstMaxBy], by simp⟩
  | cons y ys ih =>
    rw [firstMaxBy_cons]
    by_cases h : f x < f y
    · rw [if_pos h]
      obtain ⟨l₁, l₂, heq, hlt⟩ := ih y
      refine ⟨x :: l₁, l₂, by rw [List.cons_append, ← heq], ?_⟩
      intro q hq
      rcases List.mem_cons.mp hq with h1 | h1
      · exact h1 ▸ lt_of_lt_of_le h
          (firstMaxBy_le f y ys y (List.mem_cons_self _ _))
      · exact hlt q h1
    · rw [if_neg h]
      obtain ⟨l₁, l₂, heq, hlt⟩ := ih x
      cases l₁ with
      | nil =>
        rw [List.nil_append] at heq
        injection heq with hm hl
        refine ⟨[], y :: ys, ?_, by simp⟩
        rw [List.nil_append, ← hm]
      | cons a t =>
        rw [List.cons_append] at heq
        injection heq with ha ht
        refine ⟨x :: y :: t, l₂, by simp only [List.cons_append]; rw [← ht], ?_⟩
        intro q hq
        have hax : f x < f (firstMaxBy f x ys) :=
          ha ▸ hlt a (List.mem_cons_self _ _)
        rcases List.mem_cons.mp hq with h1 | h1
        · exact h1 ▸ hax
        · rcases List.mem_cons.mp h1 with h2 | h2
          · exact h2 ▸ lt_of_le_of_lt (not_lt.mp h) hax
          · exact hlt q (List.mem_cons_of_mem _ h2)

theorem reduceMinCalories_cons (x y : MilkTeaProduct)
    (ys : List MilkTeaProduct) :
    reduceMinCalories x (y :: ys) =
      reduceMinCalories (if x.calories < y.calories then x else y) ys :=
  rfl

theorem reduceMinCalories_mem (x : MilkTeaProduct)
    (xs : List MilkTeaProduct) : reduceMinCalories x xs ∈ x :: xs := by
  induction xs generalizing x with
  | nil => simp [reduceMinCalories]
  | cons y ys ih =>
    rw [reduceMinCalories_cons]
    by_cases h : x.calories < y.calories
    · rw [if_pos h]
      rcases List.mem_cons.mp (ih x) with h1 | h1
      · rw [h1]
        exact List.mem_cons_self _ _
      · exact List.mem_cons_of_mem _ (List.mem_cons_of_mem _ h1)
    · rw [if_neg h]
      exact List.mem_cons_of_mem _ (ih y)

theorem reduceMinCalories_le (x : MilkTeaProduct)
    (xs : List MilkTeaProduct) :
    ∀ q ∈ x :: xs, (reduceMinCalories x xs).calories ≤ q.calories := by
  induction xs generalizing x with
  | nil =>
    intro q hq
    rcases List.mem_cons.mp hq with h | h
    · rw [h]
      exact le_refl _
    · simp at h
  | cons y ys ih =>
    intro q hq
    rw [reduceMinCalories_cons]
    by_cases h : x.calories < y.calories
    · rw [if_pos h]
      rcases List.mem_cons.mp hq with h1 | h1
      · exact h1 ▸ ih x x (List.mem_cons_self _ _)
      · rcases List.mem_cons.mp h1 with h2 | h2
        · exact h2 ▸ le_trans (ih x x (List.mem_cons_self _ _)) (le_of_lt h)
        · exact ih x q (List.mem_cons_of_mem _ h2)
    · rw [if_neg h]
      rcases List.mem_cons.mp hq with h1 | h1
      · exact h1 ▸ le_trans (ih y y (List.mem_cons_self _ _)) (not_lt.mp h)
      · exact ih y q h1

theorem reduceMinCalories_last (x : MilkTeaProduct)
    (xs : List MilkTeaProduct) :
    ∃ l₁ l₂, x :: xs = l₁ ++ reduceMinCalories x xs :: l₂ ∧
      ∀ q ∈ l₂, (reduceMinCalories x xs).calories < q.calories := by
  induction xs generalizing x with
  | nil => exact ⟨[], [], by simp [reduceMinCalories], by simp⟩
  | cons y ys ih =>
    rw [reduceMinCalories_cons]
    by_cases h : x.calories < y.calories
    · rw [if_pos h]
      obtain ⟨l₁, l₂, heq, hlt⟩ := ih x
      cases l₁ with
      | nil =>
        rw [List.nil_append] at heq
        injection heq with hm hl
        refine ⟨[], y :: ys, ?_, ?_⟩
        · rw [List.nil_append, ← hm]
        · intro q hq
          rcases List.mem_cons.mp hq with h1 | h1
          · rw [h1, ← hm]
            exact h
          · rw [hl] at h1
            exact hlt q h1
      | cons a t =>
        rw [List.cons_append] at heq
        injection heq with ha ht
        refine ⟨x :: y :: t, l₂,
          by simp only [List.cons_append]; rw [← ht], hlt⟩
    · rw [if_neg h]
      obtain ⟨l₁, l₂, heq, hlt⟩ := ih y
      exact ⟨x :: l₁, l₂, by rw [List.cons_append, ← heq], hlt⟩

theorem insertByRating_length (p : TeaProduct) (l : List TeaProduct) :
    (insertByRating p l).length = l.length + 1 := by
  induction l with
  | nil => rfl
  | cons q qs ih =>
    rw [insertByRating]
    by_cases h : q.rating < p.rating
    · rw [if_pos h]
      simp
    · rw [if_neg h]
      simp [ih]

theorem sortByRatingDesc_length (l : List TeaProduct) :
    (sortByRatingDesc l).length = l.length := by
  induction l with
  | nil => rfl
  | cons p ps ih =>
    rw [sortByRatingDesc, insertByRating_length, ih]
    rfl

/-- The model of the JS size-multiplier table lookup agrees with the plain
conditional table of the specification (unknown sizes default to 1.0). -/
theorem sizeMultiplierOf_eq (size : String) :
    sizeMultiplierOf size =
      if size = "small" then 0.8
      else if size = "medium" then 1.0
      else if size = "large" then 1.3
      else 1.0 := by
  rw [sizeMultiplierOf]
  split_ifs <;> simp [jsNumOr] <;> norm_num

/-! ## Claim theorems -/

/-- C4: for every non-negative base calorie value, any cup size string
(unknown sizes defaulting to multiplier 1.0) and sweetness percent in
[0, 100], `calculateTotalCalories` computes exactly the specification's
`round(baseCalories * sizeMultiplier * (0.7 + 0.3 * sweetnessPercent/100))`
with multipliers small = 0.8, medium = 1.0, large = 1.3, rounding half-up;
in particular estimate(200, medium, 50) = 170, estimate(200, large, 100) =
260 and estimate(200, small, 0) = 112. -/
theorem c4_estimator_matches_spec (base sweet : ℚ) (size : String)
    (h0 : 0 ≤ base) (h1 : 0 ≤ sweet) (h2 : sweet ≤ 100) :
    calculateTotalCalories (some (mkDrink base)) size sweet =
        estimateSpec base size sweet ∧
      calculateTotalCalories (some (mkDrink 200)) "medium" 50 = 170 ∧
      calculateTotalCalories (some (mkDrink 200)) "large" 100 = 260 ∧
      calculateTotalCalories (some (mkDrink 200)) "small" 0 = 112 := by
  refine ⟨?_, ?_, ?_, ?_⟩
  · simp only [calculateTotalCalories, estimateSpec, mkDrink, sizeMultiplierOf_eq]
  · simp [calculateTotalCalories, mkDrink, sizeMultiplierOf, jsNumOr, jsMathRound]
    norm_num
  · simp [calculateTotalCalories, mkDrink, sizeMultiplierOf, jsNumOr, jsMathRound]
    norm_num
  · simp [calculateTotalCalories, mkDrink, sizeMultiplierOf, jsNumOr, jsMathRound]
    norm_num

/-- Witness for C4 at base 200, size medium, sweetness 50. -/
theorem c4_estimator_matches_spec_witness :
    calculateTotalCalories (some (mkDrink 200)) "medium" 50 =
        estimateSpec 200 "medium" 50 ∧
      calculateTotalCalories (some (mkDrink 200)) "medium" 50 = 170 ∧
      calculateTotalCalories (some (mkDrink 200)) "large" 100 = 260 ∧
      calculateTotalCalories (some (mkDrink 200)) "small" 0 = 112 :=
  c4_estimator_matches_spec 200 50 "medium" (by norm_num) (by norm_num)
    (by norm_num)

/-- C7: the sweetness percent-to-label mapping used when assembling a record
maps 0 to 无糖 (none), (0, 30] to 少糖 (light), (30, 70] to 半糖 (half) and
(70, 100] to 全糖 (full), each boundary belonging to the lower tier; in
particular label(30) = light, label(31) = half, label(70) = half and
label(71) = full. -/
theorem c7_sugar_tier_mapping :
    (∀ p : ℚ,
      (p = 0 → getSugarLevelName p = "无糖") ∧
      (0 < p → p ≤ 30 → getSugarLevelName p = "少糖") ∧
      (30 < p → p ≤ 70 → getSugarLevelName p = "半糖") ∧
      (70 < p → p ≤ 100 → getSugarLevelName p = "全糖")) ∧
    getSugarLevelName 30 = "少糖" ∧ getSugarLevelName 31 = "半糖" ∧
    getSugarLevelName 70 = "半糖" ∧ getSugarLevelName 71 = "全糖" := by
  constructor
  · intro p
    refine ⟨?_, ?_, ?_, ?_⟩
    · intro h0
      rw [getSugarLevelName, if_pos h0]
    · intro hp h30
      rw [getSugarLevelName, if_neg (ne_of_gt hp), if_pos h30]
    · intro h30 h70
      rw [getSugarLevelName, if_neg (by linarith : (0:ℚ) < p).ne',
        if_neg (not_le.mpr h30), if_pos h70]
    · intro h70 h100
      rw [getSugarLevelName, if_neg (by linarith : (0:ℚ) < p).ne',
        if_neg (not_le.mpr (by linarith)), if_neg (not_le.mpr h70)]
  · refine ⟨?_, ?_, ?_, ?_⟩ <;> norm_num [getSugarLevelName]

/-- Witness for C7: the tier of the boundary value 30 is 少糖 (light). -/
theorem c7_sugar_tier_mapping_witness : getSugarLevelName 30 = "少糖" :=
  (c7_sugar_tier_mapping.1 30).2.1 (by norm_num) (by norm_num)

/-- C6: the recommendation pair for an empty result set has both fields
absent, and for a one-element result set [p] the lowest-calorie field is p
and the balanced field is absent. -/
theorem c6_recommend_empty_and_singleton :
    recommend [] = (none, none) ∧
      ∀ p : MilkTeaProduct, recommend [p] = (some p, none) := by
  constructor
  · rfl
  · intro p
    simp [recommend, lowestCalorieOf, balancedOf, reduceMinCalories]

/-- C5 counterexample: on two products sharing the minimal calorie value the
lowest-calorie pick is the second (last-encountered) one, not the
first-encountered one as the claim states. -/
theorem c5_counterexample_tie_goes_to_last :
    lowestCalorieOf [twinA, twinB] = some twinB ∧ twinB ≠ twinA := by
  decide

/-- C5 amended: for every non-empty result set the lowest-calorie
recommendation is an element of minimal calorie value, but among several
elements sharing the minimal value the last-encountered one is chosen
(every element after the chosen one has strictly more calories). -/
theorem c5_lowest_calorie_minimal_last_tie (x : MilkTeaProduct)
    (xs : List MilkTeaProduct) :
    ∃ low, lowestCalorieOf (x :: xs) = some low ∧
      low ∈ x :: xs ∧
      (∀ q ∈ x :: xs, low.calories ≤ q.calories) ∧
      ∃ l₁ l₂, x :: xs = l₁ ++ low :: l₂ ∧
        ∀ q ∈ l₂, low.calories < q.calories :=
  ⟨reduceMinCalories x xs, rfl, reduceMinCalories_mem x xs,
    reduceMinCalories_le x xs, reduceMinCalories_last x xs⟩

/-- C1: evaluation of the record assembly at a matched catalog selection.
The submitted record gets the free-text name, the literal brand 自定义
(custom) and the fixed 200 calories even though a catalog product with base
calories 300 is selected, for which the estimator of §4.3 yields 255; the
code discards `selectedDrink` and `calculateTotalCalories` when assembling
`recordData`. -/
theorem c1_assembly_ignores_matched_product :
    (handleSubmitRecordData none "珍珠奶茶" (some (mkDrink 300)) "medium" 50
        "happy" "" 1700000000000 "2026-10-11"
        "2026-10-11T03:00:00.000Z").drinkName = "珍珠奶茶" ∧
      (handleSubmitRecordData none "珍珠奶茶" (some (mkDrink 300)) "medium" 50
        "happy" "" 1700000000000 "2026-10-11"
        "2026-10-11T03:00:00.000Z").brand = "自定义" ∧
      (handleSubmitRecordData none "珍珠奶茶" (some (mkDrink 300)) "medium" 50
        "happy" "" 1700000000000 "2026-10-11"
        "2026-10-11T03:00:00.000Z").calories = 200 ∧
      calculateTotalCalories (some (mkDrink 300)) "medium" 50 = 255 := by
  refine ⟨rfl, rfl, rfl, ?_⟩
  simp [calculateTotalCalories, mkDrink, sizeMultiplierOf, jsNumOr, jsMathRound]
  norm_num

/-- C3: whenever at least one candidate remains after excluding the
lowest-calorie pick by identity, the balanced recommendation is the
first-encountered candidate maximising
`0.5*(rating/5) + 0.3*(1 - (calories - minCalories)/calorieRange) +
0.2*(brand differs from the lowest pick's brand)`, where the calorie range
is taken over the full result set with zero replaced by 1. -/
theorem c3_balanced_is_first_max_score (x y : MilkTeaProduct)
    (xs ys : List MilkTeaProduct)
    (hc : (x :: xs).filter
        (fun p => p.id ≠ (reduceMinCalories x xs).id) = y :: ys) :
    ∃ b, balancedOf (x :: xs) = some b ∧
      b ∈ y :: ys ∧
      (∀ q ∈ y :: ys,
        balanceScore (minCaloriesOf x xs) (calorieRangeOf x xs)
            (reduceMinCalories x xs).brand q ≤
          balanceScore (minCaloriesOf x xs) (calorieRangeOf x xs)
            (reduceMinCalories x xs).brand b) ∧
      ∃ l₁ l₂, y :: ys = l₁ ++ b :: l₂ ∧
        ∀ q ∈ l₁,
          balanceScore (minCaloriesOf x xs) (calorieRangeOf x xs)
              (reduceMinCalories x xs).brand q <
            balanceScore (minCaloriesOf x xs) (calorieRangeOf x xs)
              (reduceMinCalories x xs).brand b := by
  refine ⟨firstMaxBy
      (balanceScore (minCaloriesOf x xs) (calorieRangeOf x xs)
        (reduceMinCalories x xs).brand) y ys, ?_,
    firstMaxBy_mem _ y ys, firstMaxBy_le _ y ys, firstMaxBy_first _ y ys⟩
  simp only [balancedOf]
  rw [hc]

/-- Witness for C3 on the three-product sample set: the lowest pick is
prodA, the candidates are [prodB, prodC]. -/
theorem c3_balanced_is_first_max_score_witness :
    ∃ b, balancedOf [prodA, prodB, prodC] = some b ∧
      b ∈ [prodB, prodC] ∧
      (∀ q ∈ [prodB, prodC],
        balanceScore (minCaloriesOf prodA [prodB, prodC])
            (calorieRangeOf prodA [prodB, prodC])
            (reduceMinCalories prodA [prodB, prodC]).brand q ≤
          balanceScore (minCaloriesOf prodA [prodB, prodC])
            (calorieRangeOf prodA [prodB, prodC])
            (reduceMinCalories prodA [prodB, prodC]).brand b) ∧
      ∃ l₁ l₂, [prodB, prodC] = l₁ ++ b :: l₂ ∧
        ∀ q ∈ l₁,
          balanceScore (minCaloriesOf prodA [prodB, prodC])
              (calorieRangeOf prodA [prodB, prodC])
              (reduceMinCalories prodA [prodB, prodC]).brand q <
            balanceScore (minCaloriesOf prodA [prodB, prodC])
              (calorieRangeOf prodA [prodB, prodC])
              (reduceMinCalories prodA [prodB, prodC]).brand b :=
  c3_balanced_is_first_max_score prodA prodB [prodB, prodC] [prodC]
    (by decide)

/-- C2 counterexample: on a one-row catalog a whitespace-only query makes
`searchTeaProducts` return that (popular) row, not the empty list the claim
requires. -/
theorem c2_counterexample_empty_query_not_empty :
    searchTeaProducts [demoTea] " " 10 = [demoTea] ∧
      ([demoTea] : List TeaProduct) ≠ [] := by
  decide

/-- C2 amended: for an empty or whitespace-only query, `searchTeaProducts`
returns the catalog ordered by descending rating truncated to the limit —
the popular products, non-empty whenever the catalog is non-empty and the
limit is positive; only the SmartRecommendations component short-circuits a
whitespace query to an empty recommendation state, without searching. -/
theorem c2_empty_query_returns_popular (table : List TeaProduct)
    (query : String) (limit : ℕ) (hq : jsTrim query = "") :
    searchTeaProducts table query limit = (sortByRatingDesc table).take limit ∧
      (table ≠ [] → limit ≠ 0 → searchTeaProducts table query limit ≠ []) ∧
      ∀ search, smartRecUpdate search query = (none, none) := by
  refine ⟨by rw [searchTeaProducts, if_pos hq], ?_,
    fun search => by rw [smartRecUpdate, if_pos hq]⟩
  intro ht hl hcontra
  rw [searchTeaProducts, if_pos hq] at hcontra
  have hlen := congrArg List.length hcontra
  rw [List.length_take, sortByRatingDesc_length, List.length_nil] at hlen
  have htl : table.length ≠ 0 := fun h0 => ht (List.length_eq_zero.mp h0)
  omega

/-- Witness for C2 amended at the one-row catalog and the whitespace
query. -/
theorem c2_empty_query_returns_popular_witness :
    searchTeaProducts [demoTea] " " 10 =
        (sortByRatingDesc [demoTea]).take 10 ∧
      (([demoTea] : List TeaProduct) ≠ [] → (10 : ℕ) ≠ 0 →
        searchTeaProducts [demoTea] " " 10 ≠ []) ∧
      ∀ search, smartRecUpdate search " " = (none, none) :=
  c2_empty_query_returns_popular [demoTea] " " 10 (by decide)

/-- C8: editing an existing (well-formed) record preserves its id, creation
date and timestamp through the assembler; a save without an existing record
mints the time-based id and the timestamp of now, and prepending the freshly
stamped record keeps the id list duplicate-free whenever the minted id is
new. -/
theorem c8_edit_preserves_identity_create_mints_fresh
    (er : TeaRecordLocal) (customName : String)
    (sel : Option MilkTeaProduct) (cupSize : String) (sugarLevel : ℚ)
    (mood notes : String) (nowMs : ℕ) (todayStr nowIso : String)
    (records : List TeaRecordLocal) (updated : TeaRecordLocal)
    (nowMs2 : ℕ) (nowIso2 : String)
    (hid : er.id ≠ "") (hdate : er.date ≠ "") (hts : er.timestamp ≠ "") :
    ((handleSubmitRecordData (some er) customName sel cupSize sugarLevel
        mood notes nowMs todayStr nowIso).id = er.id ∧
      (handleSubmitRecordData (some er) customName sel cupSize sugarLevel
        mood notes nowMs todayStr nowIso).date = er.date ∧
      (handleSubmitRecordData (some er) customName sel cupSize sugarLevel
        mood notes nowMs todayStr nowIso).timestamp = er.timestamp) ∧
    ((handleSubmitRecordData none customName sel cupSize sugarLevel
        mood notes nowMs todayStr nowIso).id = toString nowMs ∧
      (handleSubmitRecordData none customName sel cupSize sugarLevel
        mood notes nowMs todayStr nowIso).date = todayStr ∧
      (handleSubmitRecordData none customName sel cupSize sugarLevel
        mood notes nowMs todayStr nowIso).timestamp = nowIso) ∧
    (onSaveRecords records none updated nowMs2 nowIso2 =
        { updated with id := toString nowMs2, timestamp := nowIso2 }
          :: records ∧
      (toString nowMs2 ∉ records.map (fun r => r.id) →
        (records.map (fun r => r.id)).Nodup →
        ((onSaveRecords records none updated nowMs2 nowIso2).map
          (fun r => r.id)).Nodup)) := by
  refine ⟨⟨?_, ?_, ?_⟩, ⟨rfl, rfl, rfl⟩, rfl, ?_⟩
  · simp [handleSubmitRecordData, jsStrOr, hid]
  · simp [handleSubmitRecordData, jsStrOr, hdate]
  · simp [handleSubmitRecordData, jsStrOr, hts]
  · intro hfresh hnd
    simp only [onSaveRecords, List.map_cons, List.nodup_cons]
    exact ⟨hfresh, hnd⟩

/-- Witness for C8 at a concrete stored record and clock values. -/
theorem c8_edit_preserves_identity_create_mints_fresh_witness :
    ((handleSubmitRecordData (some demoOld) "新奶茶" none "large" 30
        "relaxed" "n" 1760000000000 "2026-10-11"
        "2026-10-11T03:00:00.000Z").id = demoOld.id ∧
      (handleSubmitRecordData (some demoOld) "新奶茶" none "large" 30
        "relaxed" "n" 1760000000000 "2026-10-11"
        "2026-10-11T03:00:00.000Z").date = demoOld.date ∧
      (handleSubmitRecordData (some demoOld) "新奶茶" none "large" 30
        "relaxed" "n" 1760000000000 "2026-10-11"
        "2026-10-11T03:00:00.000Z").timestamp = demoOld.timestamp) ∧
    ((handleSubmitRecordData none "新奶茶" none "large" 30
        "relaxed" "n" 1760000000000 "2026-10-11"
        "2026-10-11T03:00:00.000Z").id = toString 1760000000000 ∧
      (handleSubmitRecordData none "新奶茶" none "large" 30
        "relaxed" "n" 1760000000000 "2026-10-11"
        "2026-10-11T03:00:00.000Z").date = "2026-10-11" ∧
      (handleSubmitRecordData none "新奶茶" none "large" 30
        "relaxed" "n" 1760000000000 "2026-10-11"
        "2026-10-11T03:00:00.000Z").timestamp =
        "2026-10-11T03:00:00.000Z") ∧
    (onSaveRecords [demoOld] none demoOld 1760000000001
        "2026-10-11T03:00:01.000Z" =
        { demoOld with
          id := toString 1760000000001
          timestamp := "2026-10-11T03:00:01.000Z" } :: [demoOld] ∧
      (toString 1760000000001 ∉ [demoOld].map (fun r => r.id) →
        ([demoOld].map (fun r => r.id)).Nodup →
        ((onSaveRecords [demoOld] none demoOld 1760000000001
          "2026-10-11T03:00:01.000Z").map (fun r => r.id)).Nodup)) :=
  c8_edit_preserves_identity_create_mints_fresh demoOld "新奶茶" none
    "large" 30 "relaxed" "n" 1760000000000 "2026-10-11"
    "2026-10-11T03:00:00.000Z" [demoOld] demoOld 1760000000001
    "2026-10-11T03:00:01.000Z" (by decide) (by decide) (by decide)

theorem filter_id_length_of_mem (records : List TeaRecordLocal)
    (rid : String) (hnd : (records.map (fun r => r.id)).Nodup)
    (hex : ∃ r ∈ records, r.id = rid) :
    (records.filter (fun r => r.id ≠ rid)).length + 1 = records.length := by
  induction records with
  | nil => simp at hex
  | cons x xs ih =>
    rw [List.map_cons, List.nodup_cons] at hnd
    obtain ⟨hx, hxs⟩ := hnd
    by_cases hxid : x.id = rid
    · have hall : ∀ r ∈ xs, r.id ≠ rid := by
        intro r hr hc
        apply hx
        rw [hxid, ← hc]
        exact List.mem_map_of_mem _ hr
      simp [List.filter_cons, hxid]
      intro a ha
      exact hall a ha
    · obtain ⟨r, hr, hrid⟩ := hex
      rcases List.mem_cons.mp hr with h1 | h1
      · exact absurd (h1 ▸ hrid) hxid
      · have hlen := ih hxs ⟨r, h1, hrid⟩
        simp [List.filter_cons, hxid] at hlen ⊢
        omega

/-- C9: deleting by id writes the same filtered list to the in-memory state
and to local storage; under the at-most-one-record-per-id invariant a
present id loses exactly one entry, an absent id changes nothing, every
non-matching entry survives, no matching entry survives, and deleting again
is a no-op. -/
theorem c9_delete_by_id (records : List TeaRecordLocal) (rid : String)
    (hnd : (records.map (fun r => r.id)).Nodup) :
    (handleDeleteRecord records rid).1 = (handleDeleteRecord records rid).2 ∧
      ((∃ r ∈ records, r.id = rid) →
        (handleDeleteRecord records rid).1.length + 1 = records.length) ∧
      ((∀ r ∈ records, r.id ≠ rid) →
        (handleDeleteRecord records rid).1 = records) ∧
      (∀ r ∈ records, r.id ≠ rid → r ∈ (handleDeleteRecord records rid).1) ∧
      (∀ r ∈ (handleDeleteRecord records rid).1, r.id ≠ rid) ∧
      handleDeleteRecord (handleDeleteRecord records rid).1 rid =
        ((handleDeleteRecord records rid).1,
          (handleDeleteRecord records rid).1) := by
  refine ⟨rfl, ?_, ?_, ?_, ?_, ?_⟩
  · exact fun hex => filter_id_length_of_mem records rid hnd hex
  · intro hall
    apply List.filter_eq_self.mpr
    intro a ha
    simpa using hall a ha
  · intro r hr hne
    simp only [handleDeleteRecord]
    rw [List.mem_filter]
    exact ⟨hr, by simpa using hne⟩
  · intro r hr
    simp only [handleDeleteRecord] at hr
    rw [List.mem_filter] at hr
    simpa using hr.2
  · simp only [handleDeleteRecord, Prod.mk.injEq]
    constructor <;>
      · apply List.filter_eq_self.mpr
        intro a ha
        rw [List.mem_filter] at ha
        exact ha.2

/-- Witness for C9 at a one-record list and its id. -/
theorem c9_delete_by_id_witness :
    (handleDeleteRecord [demoOld] "1700000000000").1 =
        (handleDeleteRecord [demoOld] "1700000000000").2 ∧
      ((∃ r ∈ [demoOld], r.id = "1700000000000") →
        (handleDeleteRecord [demoOld] "1700000000000").1.length + 1 =
          [demoOld].length) ∧
      ((∀ r ∈ [demoOld], r.id ≠ "1700000000000") →
        (handleDeleteRecord [demoOld] "1700000000000").1 = [demoOld]) ∧
      (∀ r ∈ [demoOld], r.id ≠ "1700000000000" →
        r ∈ (handleDeleteRecord [demoOld] "1700000000000").1) ∧
      (∀ r ∈ (handleDeleteRecord [demoOld] "1700000000000").1,
        r.id ≠ "1700000000000") ∧
      handleDeleteRecord
          (handleDeleteRecord [demoOld] "1700000000000").1 "1700000000000" =
        ((handleDeleteRecord [demoOld] "1700000000000").1,
          (handleDeleteRecord [demoOld] "1700000000000").1) :=
  c9_delete_by_id [demoOld] "1700000000000" (by decide)

/-- C10: the weekly budget save commits the entered value to component state
and storage and leaves edit mode exactly when the value lies in (0, 10000];
any other value leaves the whole state (including the stored budget and the
editing flag) unchanged, so every newly committed budget lies in
(0, 10000]. -/
theorem c10_budget_commit_range (st : BudgetState) (t : ℚ) :
    (0 < t ∧ t ≤ 10000 →
      saveBudget t st =
        { weeklyBudget := t, storedBudget := some t, isEditing := false }) ∧
    (¬(0 < t ∧ t ≤ 10000) → saveBudget t st = st) ∧
    (∀ b : ℚ, (saveBudget t st).storedBudget = some b →
      st.storedBudget ≠ some b → 0 < b ∧ b ≤ 10000) := by
  refine ⟨fun h => by rw [saveBudget, if_pos h],
    fun h => by rw [saveBudget, if_neg h], fun b hb hne => ?_⟩
  by_cases h : 0 < t ∧ t ≤ 10000
  · rw [saveBudget, if_pos h] at hb
    simp only [Option.some.injEq] at hb
    exact hb ▸ h
  · rw [saveBudget, if_neg h] at hb
    exact absurd hb hne

/-- Witness for C10: an in-range save commits, an out-of-range save is
ignored. -/
theorem c10_budget_commit_range_witness :
    saveBudget 5000 ⟨2000, none, true⟩ =
        { weeklyBudget := 5000, storedBudget := some 5000,
          isEditing := false } ∧
      saveBudget 20000 ⟨2000, none, true⟩ = ⟨2000, none, true⟩ :=
  ⟨(c10_budget_commit_range ⟨2000, none, true⟩ 5000).1
      ⟨by norm_num, by norm_num⟩,
    (c10_budget_commit_range ⟨2000, none, true⟩ 20000).2.1
      (by norm_num)⟩

end MilkTea
